import Mathlib

/-!
Verification of the Falcon tracing middleware
(`ddtrace/contrib/falcon/middleware.py`) and of the patch-registry
contract exercised by `tests/contrib/asyncpg/test_asyncpg_patch.py`.

The middleware is embedded shallowly: each framework callback
(`process_request`, `process_resource`, `process_response`) is a pure
function from its inputs (request, response, matched resource,
`req_succeeded`, the in-flight exception type, and whether the tracer
reports an active span) to the list of observable effects it performs on
the span and its collaborators, in program order.  Span mutation is
recovered by replaying the effect list over a span state.
-/

namespace Falcon

/-- Tag-key constants used by the middleware.  Their concrete values live in
`ddtrace` constants modules outside the shown sources; the exact strings are
irrelevant to every claim, only their identity as keys matters. -/
def COMPONENT : String := "component"

def SPAN_KIND : String := "span.kind"

def SPAN_MEASURED_KEY : String := "_dd.measured"

def ANALYTICS_SAMPLE_RATE_KEY : String := "_dd1.sr.eausr"

/-- Tag key `httpx.STATUS_CODE` (`ddtrace.ext.http.STATUS_CODE`). -/
def HTTP_STATUS_CODE : String := "http.status_code"

/-- The process-wide Falcon integration configuration `config.falcon`.
`hooks` is the ordered registry of "request"-hook callback identifiers;
`analytics_sample_rate` is the value returned by
`get_analytics_sample_rate(use_global_config=True)`. -/
structure FalconConfig where
  distributed_tracing : Bool
  hooks : List Nat
  analytics_sample_rate : Option String
deriving DecidableEq, Repr

/-- The fields of a Falcon request object that the middleware reads. -/
structure Req where
  method : String
  url : String
  query_string : String
  root_path : String
  uri_template : String
  headers : List (String × String)
deriving DecidableEq, Repr

/-- The fields of a Falcon response object that the middleware reads:
`status` is the status line (e.g. `"200 OK"`), `headers` is `resp._headers`. -/
structure Resp where
  status : String
  headers : List (String × String)
deriving DecidableEq, Repr

/-- A matched route handler (`resource`): the data `_name` reads from it,
namely `r.__module__` and `r.__class__.__name__`. -/
structure Resource where
  module : String
  clsName : String
deriving DecidableEq, Repr

/-- An exception type, as observed through `sys.exc_info()[0].__name__`. -/
structure ExcType where
  name : String
deriving DecidableEq, Repr

/-- Observable effects the middleware performs, in program order:
span mutations (`setTag`, `setResource`, `setTraceback`, `finish`),
span creation (`startSpan`, for `tracer.trace(...)`), the
distributed-header extraction call (`extractCtx`, for
`activate_distributed_headers` — its argument is the header mapping the
adapter receives), the two `set_http_meta` calls (`reqMeta`, `respMeta`)
and hook-callback invocations (`hook`). -/
inductive Event where
  | startSpan (operation service : String)
  | extractCtx (requestHeaders : List (String × String))
  | setTag (k : String) (v : Option String)
  | setResource (r : String)
  | setTraceback
  | reqMeta (method url query : String) (requestHeaders : List (String × String))
  | respMeta (statusCode : Option String) (responseHeaders : List (String × String))
      (route : String)
  | hook (n : Nat)
  | finish
deriving DecidableEq, Repr

/-- The span state the replayed effects act on.  `set_tag`/`set_tag_str`
append to `tags` (a `set_tag` with no value passes `None`), `set_traceback`
and `finish` bump their counters. -/
structure Span where
  resource : String
  tags : List (String × Option String)
  tracebackCount : Nat
  finishCount : Nat
deriving DecidableEq, Repr

/-- Replay one effect over the span state.  Effects addressed to
collaborators other than the span (`extractCtx`, `hook`, the metadata
recorders) leave the span record itself unchanged here; what matters for
them is their presence and position in the effect list. -/
def applyEvent (s : Span) : Event → Span
  | Event.setTag k v => { s with tags := s.tags ++ [(k, v)] }
  | Event.setResource r => { s with resource := r }
  | Event.setTraceback => { s with tracebackCount := s.tracebackCount + 1 }
  | Event.finish => { s with finishCount := s.finishCount + 1 }
  | _ => s

/-- Replay a whole effect list. -/
def replay (s : Span) (es : List Event) : Span :=
  es.foldl applyEvent s

/-- ASCII lower-casing of one string, character by character: the embedding
of Python's `str.lower()` on header names (header names are ASCII). -/
def lowerStr (s : String) : String :=
  ⟨s.data.map Char.toLower⟩

/-- Python `dict` update `m[k] = v`: replace in place when the key exists,
append otherwise (insertion order is preserved, as in CPython). -/
def dictInsert (m : List (String × String)) (k v : String) : List (String × String) :=
  if m.any fun p => p.1 = k then m.map fun p => if p.1 = k then (p.1, v) else p
  else m ++ [(k, v)]

/-- Python `dict(pairs)`: left-to-right insertion, later keys override. -/
def pyDict (ps : List (String × String)) : List (String × String) :=
  ps.foldl (fun m kv => dictInsert m kv.1 kv.2) []

/-- Line 31: `dict((k.lower(), v) for k, v in iteritems(req.headers))` —
the header mapping handed to `activate_distributed_headers`. -/
def normalizeHeaders (hs : List (String × String)) : List (String × String) :=
  pyDict (hs.map fun kv => (lowerStr kv.1, kv.2))

/-- The same header mapping with every key lower-cased (the comparison
point of property P1; the values and the order are untouched). -/
def lowerKeys (hs : List (String × String)) : List (String × String) :=
  hs.map fun kv => (lowerStr kv.1, kv.2)

/-- `schematize_url_operation("falcon.request", ...)`: external schema
helper, not under the shown sources; no claim constrains its output, so it
is embedded as the identity on the operation name. -/
def schematize_url_operation (op : String) : String := op

/-- `TraceMiddleware.__init__` (lines 20-27): resolves the service name and,
when `distributed_tracing` is not `None`, writes it into the process-wide
`config.falcon` mapping.  The global configuration is threaded explicitly:
the function returns the service stored on the instance together with the
updated global configuration. -/
def TraceMiddleware.init (cfg : FalconConfig) (service : Option String)
    (distributed_tracing : Option Bool) : String × FalconConfig :=
  let service := match service with
    | none => "falcon"
    | some s => s
  match distributed_tracing with
  | none => (service, cfg)
  | some b => (service, { cfg with distributed_tracing := b })

/-- `TraceMiddleware.process_request` (lines 29-51) as its effect list:
normalize the headers, call the extraction adapter, start the span, tag it,
and record the request metadata. -/
def process_request (cfg : FalconConfig) (service : String) (req : Req) : List Event :=
  [Event.extractCtx (normalizeHeaders req.headers),
   Event.startSpan (schematize_url_operation "falcon.request") service,
   Event.setTag COMPONENT (some "falcon"),
   Event.setTag SPAN_KIND (some "server"),
   Event.setTag SPAN_MEASURED_KEY none,
   Event.setTag ANALYTICS_SAMPLE_RATE_KEY cfg.analytics_sample_rate,
   Event.reqMeta req.method req.url req.query_string req.headers]

/-- `_name(r)` (lines 123-124): `"%s.%s" % (r.__module__, r.__class__.__name__)`. -/
def _name (r : Resource) : String :=
  r.module ++ "." ++ r.clsName

/-- `TraceMiddleware.process_resource` (lines 53-57): no-op when the tracer
has no current span, otherwise set `resource = "<METHOD> <module.Class>"`. -/
def process_resource (req : Req) (resource : Resource) (spanActive : Bool) : List Event :=
  if !spanActive then []
  else [Event.setResource (req.method ++ " " ++ _name resource)]

/-- Line 66: `resp.status.partition(" ")[0]` — the part of the status line
before the first occurrence of `" "`, the whole line when no space occurs. -/
def parseStatus (statusLine : String) : String :=
  ⟨statusLine.data.takeWhile fun c => c != ' '⟩

/-- Whether `needle` starts `hay`. -/
def startsWithList : List Char → List Char → Bool
  | _, [] => true
  | [], _ :: _ => false
  | c :: cs, d :: ds => c = d && startsWithList cs ds

/-- Whether `needle` occurs contiguously inside `hay` (Python `in` on `str`). -/
def containsList : List Char → List Char → Bool
  | [], needle => needle.isEmpty
  | c :: rest, needle => startsWithList (c :: rest) needle || containsList rest needle

/-- `_is_404` (lines 108-109): `"HTTPNotFound" in err_type.__name__`. -/
def _is_404 (err_type : ExcType) : Bool :=
  containsList err_type.name.data "HTTPNotFound".data

/-- `_detect_and_set_status_error` (lines 112-120).  The result is the
returned status (`none` mirrors Python's implicit `None` on the
unreachable fall-through) together with the span effects performed. -/
def _detect_and_set_status_error (err_type : ExcType) : Option String × List Event :=
  if !(_is_404 err_type) then (some "500", [Event.setTraceback])
  else if _is_404 err_type then (some "404", [])
  else (none, [])

/-- Lines 78-88: the error-inference block of `process_response`.  Starting
from the already-parsed `status`, reassign it from
`_detect_and_set_status_error` when an in-flight exception type exists and
`req_succeeded` is `None` (Falcon 1.0) or `False` (Falcon 1.1+). -/
def inferStatus (status : Option String) (err_type : Option ExcType)
    (req_succeeded : Option Bool) : Option String × List Event :=
  match err_type with
  | none => (status, [])
  | some et =>
    match req_succeeded with
    | none => _detect_and_set_status_error et
    | some false => _detect_and_set_status_error et
    | some true => (status, [])

/-- Line 90: `route = req.root_path or "" + req.uri_template`.  Python
parses this as `req.root_path or ("" + req.uri_template)`: a non-empty
(truthy) `root_path` is returned alone and the URI template is dropped. -/
def route (req : Req) : String :=
  if req.root_path = "" then "" ++ req.uri_template else req.root_path

/-- Modelled from the spec: the route the spec asks for — "Compute `route`
as the concatenation of root path and URI template (root path defaults to
empty)", i.e. `(root_path or "") + uri_template`.  Kept separate from
`route`, the embedding of the source line, to compare the two. -/
def routeSpec (req : Req) : String :=
  req.root_path ++ req.uri_template

/-- `TraceMiddleware.process_response` (lines 59-105) as its effect list.
`err_type` is `sys.exc_info()[0]`; `spanActive` is whether
`tracer.current_span()` returned a span.  The hook dispatcher
(`config.falcon.hooks.emit`) is modelled from the spec — §4.4: `emit`
invokes each registered callback in registration order — as one `hook`
effect per registered callback identifier, in registry order. -/
def process_response (cfg : FalconConfig) (req : Req) (resp : Resp)
    (resource : Option Resource) (req_succeeded : Option Bool)
    (err_type : Option ExcType) (spanActive : Bool) : List Event :=
  if !spanActive then []
  else
    let status : Option String := some (parseStatus resp.status)
    match resource with
    | none =>
      [Event.setResource (req.method ++ " 404"),
       Event.setTag HTTP_STATUS_CODE (some "404"),
       Event.finish]
    | some _ =>
      let se := inferStatus status err_type req_succeeded
      se.2 ++ [Event.respMeta se.1 resp.headers (route req)]
        ++ cfg.hooks.map Event.hook ++ [Event.finish]

/-- One full request lifecycle: `process_request`, then — when a route
matched — `process_resource` on the matched handler (Falcon only calls it
for matched routes), then `process_response`.  The span started by
`process_request` is the tracer's current span for the rest of the
request, so the later callbacks see `spanActive = true`. -/
def lifecycleTrace (cfg : FalconConfig) (service : String) (req : Req) (resp : Resp)
    (resource : Option Resource) (req_succeeded : Option Bool)
    (err_type : Option ExcType) : List Event :=
  process_request cfg service req
    ++ (match resource with
        | some r => process_resource req r true
        | none => [])
    ++ process_response cfg req resp resource req_succeeded err_type true

/-- Modelled from the spec: the Patch Registry of §4.5 and P4 — the
`patch`/`unpatch` implementation for an instrumented library
(`ddtrace.contrib.asyncpg.patch`) is not among the shown sources, only its
generated test is.  `wrapCount` counts the wrapping layers currently
installed around the library's entry points; `0` means the pristine entry
points. -/
structure PatchState where
  patched : Bool
  wrapCount : Nat
deriving DecidableEq, Repr

/-- Modelled from the spec: the pristine, never-patched state. -/
def PatchState.pristine : PatchState :=
  ⟨false, 0⟩

/-- Modelled from the spec: `patch()` — "no-op if already patched;
otherwise, wraps the target library's entry points ... and marks state
patched". -/
def patch (s : PatchState) : PatchState :=
  if s.patched then s else { patched := true, wrapCount := s.wrapCount + 1 }

/-- Modelled from the spec: `unpatch()` — "no-op if not patched; otherwise
restores original entry points and marks state unpatched". -/
def unpatch (s : PatchState) : PatchState :=
  if !s.patched then s else { patched := false, wrapCount := s.wrapCount - 1 }

/-- Modelled from the spec: `is_patched()`. -/
def is_patched (s : PatchState) : Bool :=
  s.patched

/-- `patch()` called `n` times in a row. -/
def patchN : Nat → PatchState → PatchState
  | 0, s => s
  | n + 1, s => patchN n (patch s)

theorem patchN_of_patched (n : Nat) (s : PatchState) (h : s.patched = true) :
    patchN n s = s := by
  induction n with
  | zero => rfl
  | succ n ih =>
    show patchN n (patch s) = s
    rw [patch, if_pos h, ih]

theorem patched_patch (s : PatchState) : (patch s).patched = true := by
  by_cases h : s.patched = true
  · rw [patch, if_pos h]; exact h
  · rw [patch, if_neg h]

/-- C1 counterexample at `root_path = "/api"`, `uri_template = "/users"`:
the source line `route = req.root_path or "" + req.uri_template` parses as
`root_path or ("" + uri_template)`, so a non-empty root path is returned
alone and the URI template is dropped, while the claimed (and
spec-intended) concatenation `routeSpec` keeps both parts. -/
theorem C1_route_drops_uri_template :
    route ⟨"GET", "http://x/api/users", "", "/api", "/users", []⟩ = "/api" ∧
    routeSpec ⟨"GET", "http://x/api/users", "", "/api", "/users", []⟩ = "/api/users" ∧
    route ⟨"GET", "http://x/api/users", "", "/api", "/users", []⟩ ≠
      routeSpec ⟨"GET", "http://x/api/users", "", "/api", "/users", []⟩ := by
  refine ⟨rfl, rfl, ?_⟩
  decide

/-- C2: when no resource resolved, `process_response` — for every request,
response, `req_succeeded` value and exception state — performs exactly
`setResource "<METHOD> 404"`, `setTag http.status_code "404"`, `finish`,
and nothing else: replaying it sets the resource, records the status tag,
finishes the span exactly once, captures no traceback, emits no hook and
records no route/response-header metadata. -/
theorem C2_unmatched_route (cfg : FalconConfig) (req : Req) (resp : Resp)
    (rs : Option Bool) (et : Option ExcType) (s₀ : Span) :
    process_response cfg req resp none rs et true =
      [Event.setResource (req.method ++ " 404"),
       Event.setTag HTTP_STATUS_CODE (some "404"),
       Event.finish] ∧
    (replay s₀ (process_response cfg req resp none rs et true)).resource =
      req.method ++ " 404" ∧
    (HTTP_STATUS_CODE, some "404") ∈
      (replay s₀ (process_response cfg req resp none rs et true)).tags ∧
    (replay s₀ (process_response cfg req resp none rs et true)).finishCount =
      s₀.finishCount + 1 ∧
    (replay s₀ (process_response cfg req resp none rs et true)).tracebackCount =
      s₀.tracebackCount ∧
    (∀ n, Event.hook n ∉ process_response cfg req resp none rs et true) ∧
    (∀ sc hs rt, Event.respMeta sc hs rt ∉ process_response cfg req resp none rs et true) := by
  refine ⟨rfl, ?_, ?_, ?_, ?_, ?_, ?_⟩ <;>
    simp [process_response, replay, applyEvent]

/-- C3: with a matched resource, error classification
(`_detect_and_set_status_error`) runs exactly when an exception type is
in flight and `req_succeeded` is `None` or `False` (the four equations
cover every case), and when it runs exactly one of the two outcomes
occurs: name contains `"HTTPNotFound"` and status `"404"` with no
traceback, or status `"500"` with the traceback captured — never both,
never neither. -/
theorem C3_error_classification (status : Option String) (et : ExcType)
    (rs : Option Bool) :
    inferStatus status none rs = (status, []) ∧
    inferStatus status (some et) (some true) = (status, []) ∧
    inferStatus status (some et) none = _detect_and_set_status_error et ∧
    inferStatus status (some et) (some false) = _detect_and_set_status_error et ∧
    ((_is_404 et = true ∧ _detect_and_set_status_error et = (some "404", [])) ∨
     (_is_404 et = false ∧
       _detect_and_set_status_error et = (some "500", [Event.setTraceback]))) ∧
    ¬(_detect_and_set_status_error et = (some "404", []) ∧
      _detect_and_set_status_error et = (some "500", [Event.setTraceback])) := by
  refine ⟨?_, rfl, rfl, rfl, ?_, ?_⟩
  · cases rs with
    | none => rfl
    | some b => cases b <;> rfl
  · cases h : _is_404 et
    · exact Or.inr ⟨rfl, by simp [_detect_and_set_status_error, h]⟩
    · exact Or.inl ⟨rfl, by simp [_detect_and_set_status_error, h]⟩
  · intro ⟨h1, h2⟩
    rw [h1] at h2
    simp at h2

/-- C6: when the tracer reports no active span, `process_resource` and
`process_response` both return immediately with an empty effect list: no
span, request or response state is touched and no exception is raised
(the functions are total). -/
theorem C6_no_active_span (cfg : FalconConfig) (req : Req) (resp : Resp)
    (resource : Option Resource) (r : Resource) (rs : Option Bool)
    (et : Option ExcType) :
    process_resource req r false = [] ∧
    process_response cfg req resp resource rs et false = [] := by
  exact ⟨rfl, rfl⟩

/-- C9: in the patch registry modelled from §4.5, `patch()` called `n+1`
times equals `patch()` called once (same `patched` flag and same single
wrapping layer — no duplicated wrapping), `is_patched` is then true,
`unpatch()` after any number of patches restores the pristine state with
`is_patched` false, and both operations are idempotent no-ops when the
state already matches. -/
theorem C9_patch_idempotent (n : Nat) (s : PatchState) :
    patchN (n + 1) s = patch s ∧
    is_patched (patchN (n + 1) s) = true ∧
    unpatch (patchN n PatchState.pristine) = PatchState.pristine ∧
    is_patched (unpatch (patchN n PatchState.pristine)) = false ∧
    patch (patch s) = patch s ∧
    unpatch (unpatch s) = unpatch s := by
  have hN : patchN (n + 1) s = patch s :=
    patchN_of_patched n (patch s) (patched_patch s)
  have hP : ∀ m, patchN (m + 1) PatchState.pristine = ⟨true, 1⟩ := fun m =>
    patchN_of_patched m (patch PatchState.pristine) rfl
  refine ⟨hN, ?_, ?_, ?_, ?_, ?_⟩
  · rw [hN]; exact patched_patch s
  · cases n with
    | zero => rfl
    | succ m => rw [hP m]; rfl
  · cases n with
    | zero => rfl
    | succ m => rw [hP m]; rfl
  · rw [patch, if_pos (patched_patch s)]
  · cases hb : s.patched <;> simp [unpatch, hb]

theorem char_toNat_ofNat (n : Nat) (h : n.isValidChar) : (Char.ofNat n).toNat = n := by
  simp [Char.ofNat, dif_pos h, Char.ofNatAux, Char.toNat, UInt32.toNat, BitVec.toNat_ofNatLt]

theorem char_toLower_idem (c : Char) : c.toLower.toLower = c.toLower := by
  have key : ¬(c.toLower.toNat ≥ 65 ∧ c.toLower.toNat ≤ 90) := by
    unfold Char.toLower
    by_cases h : c.toNat ≥ 65 ∧ c.toNat ≤ 90
    · have hv : (c.toNat + 32).isValidChar := Or.inl (by omega)
      simp only [if_pos h, char_toNat_ofNat _ hv]
      omega
    · rw [if_neg h]
      exact h
  generalize c.toLower = d at key ⊢
  unfold Char.toLower
  exact if_neg key

theorem lowerStr_idem (s : String) : lowerStr (lowerStr s) = lowerStr s := by
  have hc : (Char.toLower ∘ Char.toLower) = Char.toLower := funext char_toLower_idem
  show (⟨(s.data.map Char.toLower).map Char.toLower⟩ : String) = ⟨s.data.map Char.toLower⟩
  rw [List.map_map, hc]

/-- C4: lower-casing every key of the inbound header mapping before
`process_request` runs does not change the mapping the extraction adapter
receives: `normalizeHeaders` (the dict built on line 31 and handed to
`activate_distributed_headers`) is invariant under pre-lower-casing, and
both runs of `process_request` therefore perform the extraction call on
the identical header mapping — extraction behaves identically. -/
theorem C4_header_case_insensitive (cfg : FalconConfig) (service : String)
    (req : Req) :
    normalizeHeaders (lowerKeys req.headers) = normalizeHeaders req.headers ∧
    Event.extractCtx (normalizeHeaders req.headers) ∈
      process_request cfg service req ∧
    Event.extractCtx (normalizeHeaders req.headers) ∈
      process_request cfg service { req with headers := lowerKeys req.headers } := by
  have hf : ((fun kv : String × String => (lowerStr kv.1, kv.2)) ∘
      fun kv : String × String => (lowerStr kv.1, kv.2)) =
      fun kv : String × String => (lowerStr kv.1, kv.2) := by
    funext kv
    simp [Function.comp, lowerStr_idem]
  have hmain : normalizeHeaders (lowerKeys req.headers) = normalizeHeaders req.headers := by
    unfold normalizeHeaders lowerKeys
    rw [List.map_map, hf]
  refine ⟨hmain, ?_, ?_⟩
  · simp [process_request]
  · simp [process_request, hmain]

theorem takeWhile_of_no_space (l : List Char) (h : ' ' ∉ l) :
    l.takeWhile (fun c => c != ' ') = l := by
  induction l with
  | nil => rfl
  | cons c cs ih =>
    rw [List.mem_cons, not_or] at h
    rw [List.takeWhile_cons, if_pos (by simp [bne]; exact fun hc => h.1 hc.symm), ih h.2]

theorem dropWhile_of_space (l : List Char) (h : ' ' ∈ l) :
    ∃ t, l.dropWhile (fun c => c != ' ') = ' ' :: t := by
  induction l with
  | nil => cases h
  | cons c cs ih =>
    by_cases hc : c = ' '
    · subst hc
      exact ⟨cs, by rw [List.dropWhile_cons, if_neg (by simp)]⟩
    · have hcs : ' ' ∈ cs := by
        rcases List.mem_cons.mp h with h' | h'
        · exact absurd h'.symm hc
        · exact h'
      obtain ⟨t, ht⟩ := ih hcs
      exact ⟨t, by rw [List.dropWhile_cons, if_pos (by simp [bne, hc])]; exact ht⟩

theorem space_not_mem_takeWhile (l : List Char) :
    ' ' ∉ l.takeWhile (fun c => c != ' ') := by
  intro hmem
  have := List.mem_takeWhile_imp hmem
  simp at this

/-- C5: `parseStatus` (line 66, `resp.status.partition(" ")[0]`) returns
exactly the part of the status line preceding its first space — when the
line contains a space, the line decomposes as the parsed part, a space,
and a remainder, and the parsed part itself contains no space; when the
line contains no space the whole line is returned.  The function is a
total Lean function, so the parse never raises. -/
theorem C5_parse_status (s : String) :
    (' ' ∉ s.data → parseStatus s = s) ∧
    (' ' ∈ s.data →
      ∃ t, s.data = (parseStatus s).data ++ ' ' :: t ∧
        ' ' ∉ (parseStatus s).data) := by
  constructor
  · intro h
    show (⟨s.data.takeWhile (fun c => c != ' ')⟩ : String) = s
    rw [takeWhile_of_no_space s.data h]
  · intro h
    obtain ⟨t, ht⟩ := dropWhile_of_space s.data h
    refine ⟨t, ?_, space_not_mem_takeWhile s.data⟩
    conv_lhs => rw [← List.takeWhile_append_dropWhile (fun c => c != ' ') s.data]
    rw [ht]
    rfl

/-- C5 witness: a status line with a space splits before its first space,
and one without a space is returned whole. -/
theorem C5_parse_status_witness :
    parseStatus "HTTP" = "HTTP" ∧
    ∃ t, ("200 OK").data = (parseStatus "200 OK").data ++ ' ' :: t ∧
      ' ' ∉ (parseStatus "200 OK").data :=
  ⟨(C5_parse_status "HTTP").1 (by decide), (C5_parse_status "200 OK").2 (by decide)⟩

theorem inferStatus_snd (status : Option String) (err_type : Option ExcType)
    (req_succeeded : Option Bool) :
    (inferStatus status err_type req_succeeded).2 = [] ∨
    (inferStatus status err_type req_succeeded).2 = [Event.setTraceback] := by
  rcases err_type with _ | et
  · exact Or.inl rfl
  rcases req_succeeded with _ | b
  · rcases h : _is_404 et with _ | _
    · exact Or.inr (by simp [inferStatus, _detect_and_set_status_error, h])
    · exact Or.inl (by simp [inferStatus, _detect_and_set_status_error, h])
  rcases b with _ | _
  · rcases h : _is_404 et with _ | _
    · exact Or.inr (by simp [inferStatus, _detect_and_set_status_error, h])
    · exact Or.inl (by simp [inferStatus, _detect_and_set_status_error, h])
  · exact Or.inl rfl

/-- C7: on the matched-route path, the effect list of `process_response`
decomposes as a hook-free, finish-free prelude, followed by one `hook`
effect per registered callback in registration order, followed by the
single `finish`: every hook callback runs strictly before
`span.finish()`, while the span is still open and mutable. -/
theorem C7_hooks_before_finish (cfg : FalconConfig) (req : Req) (resp : Resp)
    (r : Resource) (rs : Option Bool) (et : Option ExcType) :
    ∃ pre,
      process_response cfg req resp (some r) rs et true =
        pre ++ cfg.hooks.map Event.hook ++ [Event.finish] ∧
      (∀ n, Event.hook n ∉ pre) ∧ Event.finish ∉ pre := by
  refine ⟨(inferStatus (some (parseStatus resp.status)) et rs).2 ++
    [Event.respMeta (inferStatus (some (parseStatus resp.status)) et rs).1
      resp.headers (route req)], ?_, ?_, ?_⟩
  · simp [process_response]
  · intro n
    rcases inferStatus_snd (some (parseStatus resp.status)) et rs with h | h <;>
      simp [h]
  · rcases inferStatus_snd (some (parseStatus resp.status)) et rs with h | h <;>
      simp [h]

theorem count_finish_map_hook (l : List Nat) :
    (l.map Event.hook).count Event.finish = 0 := by
  induction l with
  | nil => rfl
  | cons n ns ih => simp [List.count_cons, ih]

/-- C8: across one full request lifecycle — `process_request`, then
`process_resource` when a route matched, then `process_response` — the
`finish` effect occurs exactly once, whichever branch of
`process_response` runs (unmatched-route or matched path). -/
theorem C8_finish_exactly_once (cfg : FalconConfig) (service : String)
    (req : Req) (resp : Resp) (resource : Option Resource)
    (rs : Option Bool) (et : Option ExcType) :
    (lifecycleTrace cfg service req resp resource rs et).count Event.finish = 1 := by
  unfold lifecycleTrace
  rw [List.count_append, List.count_append]
  have hreq : (process_request cfg service req).count Event.finish = 0 := by
    simp [process_request, List.count_cons]
  rcases resource with _ | r
  · simp [hreq, process_response, List.count_cons]
  · have hres : (process_resource req r true).count Event.finish = 0 := by
      simp [process_resource, List.count_cons]
    rw [hreq, hres]
    show 0 + 0 + (process_response cfg req resp (some r) rs et true).count Event.finish = 1
    simp only [process_response]
    rw [show (if !true then ([] : List Event) else
      (inferStatus (some (parseStatus resp.status)) et rs).2 ++
        [Event.respMeta (inferStatus (some (parseStatus resp.status)) et rs).1
          resp.headers (route req)] ++
        cfg.hooks.map Event.hook ++ [Event.finish]) =
      (inferStatus (some (parseStatus resp.status)) et rs).2 ++
        [Event.respMeta (inferStatus (some (parseStatus resp.status)) et rs).1
          resp.headers (route req)] ++
        cfg.hooks.map Event.hook ++ [Event.finish] from rfl]
    rw [List.count_append, List.count_append, List.count_append]
    rw [count_finish_map_hook]
    rcases inferStatus_snd (some (parseStatus resp.status)) et rs with h | h <;>
      simp [h, List.count_cons]

/-- C10: constructing a `TraceMiddleware` with a non-`None`
`distributed_tracing` argument rewrites the process-wide
`config.falcon["distributed_tracing"]`, so a middleware constructed later
(with `distributed_tracing=None`) still observes the new value; with the
argument `None` the global configuration is returned unchanged. -/
theorem C10_init_mutates_global_config (cfg : FalconConfig)
    (svc svc₂ : Option String) (b : Bool) :
    (TraceMiddleware.init cfg svc (some b)).2 =
      { cfg with distributed_tracing := b } ∧
    (TraceMiddleware.init cfg svc none).2 = cfg ∧
    (TraceMiddleware.init (TraceMiddleware.init cfg svc (some b)).2
        svc₂ none).2.distributed_tracing = b := by
  cases svc <;> cases svc₂ <;> exact ⟨rfl, rfl, rfl⟩

end Falcon
